import Mathlib

/-!
Shallow embedding of the game-session engine in
`src/server/models/game_instance.js` (class `GameInstance`).

Modelling conventions:
* The injected rules module (`this.game`) is a value of an abstract state type
  `G` together with a record `Rules G` of the pure capabilities the session
  consumes (`getPlayerCount`, `isValidMove`, `move`, `isEnded`, ...).  A JS
  method that mutates the module's internal state is modelled as a function
  returning the new state.
* `EventEmitter` emission is synchronous in node; the constructor registers the
  two history handlers, so emitting `start`/`stateChange`/`move` runs the
  corresponding history update at the emission point.  Operations therefore
  return, besides the new session state, the list of events they emitted, in
  emission order, with the history updates applied inline.
* `deepcopy` of the full state is the identity on values of `G` (Lean values
  are immutable, which is exactly what the deep copy is for).
* `crypto.randomBytes` is an external randomness source: the generated token
  is passed in as an explicit argument.
* Player slots, move payloads, tokens, params, winners and state views are
  opaque data; they are represented by `Nat`.  A JS argument whose falsiness
  is tested (`if (player ...)`) is represented by `Nat` with `0` playing the
  role of a falsy/absent value.
-/

/-- The status enum `GameStatus` (`NOT_STARTED/STARTED/ENDED/ERROR`). -/
inductive GameStatus : Type
| not_started
| started
| ended
| error
deriving DecidableEq, Repr

/-- An entry of `history.events`: either a state snapshot
`{eventType: "state", fullState}` or a move record
`{eventType: "move", player, move}`. -/
inductive HistEvent (G : Type) : Type
| state (fullState : G)
| move (player : Nat) (mv : Nat)
deriving DecidableEq, Repr

/-- The `history` object `{ events: [], next: null }` of a `GameInstance`. -/
structure History (G : Type) : Type where
  events : List (HistEvent G)
  next : Option G
deriving DecidableEq, Repr

/-- The five session events emitted on the session's `EventEmitter`
(`start`, `stateChange`, `move`, `waitingForMove`, `end`). -/
inductive Ev : Type
| start
| stateChange
| move (player : Nat) (mv : Nat)
| waitingForMove (nextPlayer : Nat)
| endGame
deriving DecidableEq, Repr

/-- The capabilities of the injected rules module (`this.game`), acting on an
abstract internal state `G`.  `move` takes player, move payload and the elapsed
move time; `onMoveTimeout` returns the reported changed-flag together with the
module state it leaves behind. -/
structure Rules (G : Type) : Type where
  playerCount : Nat
  getParams : Nat
  getNextPlayer : G → Nat
  isValidMove : G → Nat → Nat → Bool
  move : G → Nat → Nat → Nat → G
  isEnded : G → Bool
  isError : G → Bool
  getWinner : G → Nat
  getStateView : G → Option Nat → Nat
  getMoveTimeLimit : G → Nat
  onMoveTimeout : G → Bool × G

/-- The mutable fields of a `GameInstance`.  `playerTokenTable` and
`playerState` are the two JS dictionaries, as association lists where a `cons`
shadows older entries (JS assignment overwrites); `playerState` maps a player
slot to its `connectedOnce` flag.  `timerRunning` is true exactly while
`moveTimer` has a pending scheduled fire. -/
structure GameInstance (G : Type) : Type where
  id : Nat
  status : GameStatus
  history : History G
  currentPlayerCount : Nat
  connectedPlayerCount : Nat
  playerTokenTable : List (Nat × Nat)
  playerState : List (Nat × Bool)
  game : G
  timerRunning : Bool
deriving DecidableEq, Repr

/-- The constructor `new GameInstance(id, game)`: status `NOT_STARTED`, empty
history, zero counters, empty tables, timer not running. -/
def GameInstance.init (id : Nat) (g : G) : GameInstance G :=
  { id := id
    status := GameStatus.not_started
    history := { events := [], next := none }
    currentPlayerCount := 0
    connectedPlayerCount := 0
    playerTokenTable := []
    playerState := []
    game := g
    timerRunning := false }

/-- The handler installed on `start` and `stateChange` (lines 28-35): if
`history.next` is set, push it onto `events`, then buffer a fresh snapshot of
the current full state in `history.next`. -/
def History.recordTransition (g : G) (h : History G) : History G :=
  match h.next with
  | some s => { events := h.events ++ [HistEvent.state s], next := some g }
  | none => { events := h.events, next := some g }

/-- The handler installed on `move` (lines 37-43): flush a pending snapshot if
one is buffered, then append the move record. -/
def History.recordMove (p m : Nat) (h : History G) : History G :=
  match h.next with
  | some s => { events := h.events ++ [HistEvent.state s, HistEvent.move p m], next := none }
  | none => { events := h.events ++ [HistEvent.move p m], next := none }

/-- The method `hasStarted()`: `status !== NOT_STARTED`. -/
def GameInstance.hasStarted (s : GameInstance G) : Bool :=
  decide (s.status ≠ GameStatus.not_started)

/-- The method `getNextPlayer()`: the rules module's next player once started,
`null` before. -/
def GameInstance.getNextPlayer (R : Rules G) (s : GameInstance G) : Option Nat :=
  if s.hasStarted then some (R.getNextPlayer s.game) else none

/-- The method `getWinner()`: the rules module's winner once started, `null`
before. -/
def GameInstance.getWinner (R : Rules G) (s : GameInstance G) : Option Nat :=
  if s.hasStarted then some (R.getWinner s.game) else none

/-- The session summary returned by `getInfo()`.  The two conditionally
spread fields are optional: `none` models the field being absent from the
returned object; when present, each carries the value of the corresponding
accessor (itself nullable, hence the inner `Option`). -/
structure Info : Type where
  gameId : Nat
  params : Nat
  connectedPlayers : Nat
  players : Nat
  status : GameStatus
  nextPlayer : Option (Option Nat)
  winner : Option (Option Nat)
deriving DecidableEq, Repr

/-- The method `getInfo()` (lines 46-56): base fields always present,
`nextPlayer` spread in only when status is `STARTED`, `winner` spread in only
when status is `ENDED`. -/
def GameInstance.getInfo (R : Rules G) (s : GameInstance G) : Info :=
  { gameId := s.id
    params := R.getParams
    connectedPlayers := s.connectedPlayerCount
    players := R.playerCount
    status := s.status
    nextPlayer := if s.status = GameStatus.started then some (s.getNextPlayer R) else none
    winner := if s.status = GameStatus.ended then some (s.getWinner R) else none }

/-- The slot-search loop `player = 1; while (this.playerState[player]) player++`,
with explicit fuel (the loop terminates because the table is finite; fuel
`ps.length + 1` is enough, see `firstFreeSlot_lookup_none`). -/
def firstFreeSlot (ps : List (Nat × Bool)) : Nat → Nat → Nat
| 0, start => start
| fuel + 1, start =>
  if (ps.lookup start).isSome then firstFreeSlot ps fuel (start + 1) else start

/-- The method `registerNewPlayer(player)` (lines 58-72).  `player = 0` models
a falsy/absent requested slot; `tok` is the token produced by
`crypto.randomBytes(20)` (randomness passed in from outside).  Returns the JS
return value (`null` or `{player, playerToken}`) together with the new session
state. -/
def GameInstance.registerNewPlayer (R : Rules G) (s : GameInstance G) (player tok : Nat) :
    Option (Nat × Nat) × GameInstance G :=
  if player ≠ 0 ∧ (s.playerState.lookup player).isSome then (none, s)
  else if s.currentPlayerCount = R.playerCount then (none, s)
  else
    let p := if player = 0 then firstFreeSlot s.playerState (s.playerState.length + 1) 1 else player
    (some (p, tok),
      { s with
        currentPlayerCount := s.currentPlayerCount + 1
        playerTokenTable := (tok, p) :: s.playerTokenTable
        playerState := (p, false) :: s.playerState })

/-- The method `getPlayer(playerToken)` (token resolution). -/
def GameInstance.getPlayer (s : GameInstance G) (tok : Nat) : Option Nat :=
  s.playerTokenTable.lookup tok

/-- The private method `_onStateChange({announceState, announceMove})`
(lines 132-142).  When the game has not ended: optionally emit `stateChange`
(running the history handler), optionally emit `waitingForMove(nextPlayer)`,
and start the move timer.  When it has ended: set the terminal status from the
rules module's error flag and emit `end`. -/
def onStateChange (R : Rules G) (s : GameInstance G) (announceState announceMove : Bool) :
    GameInstance G × List Ev :=
  if R.isEnded s.game then
    ({ s with status := if R.isError s.game then GameStatus.error else GameStatus.ended },
      [Ev.endGame])
  else
    let sAndEvs :=
      if announceState then
        ({ s with history := s.history.recordTransition s.game }, [Ev.stateChange])
      else (s, [])
    let evs2 := if announceMove then [Ev.waitingForMove (R.getNextPlayer s.game)] else []
    ({ sAndEvs.1 with timerRunning := true }, sAndEvs.2 ++ evs2)

/-- The method `connect(player)` (lines 78-89).  Returns `none` when the JS
code throws (`this.playerState[player]` is `undefined` for an unregistered
player, so `.connectedOnce` raises a `TypeError` before any mutation);
otherwise `some` of the new state and the emitted events. -/
def GameInstance.connect (R : Rules G) (s : GameInstance G) (player : Nat) :
    Option (GameInstance G × List Ev) :=
  match s.playerState.lookup player with
  | none => none
  | some true => some (s, [])
  | some false =>
    let s1 := { s with
      connectedPlayerCount := s.connectedPlayerCount + 1
      playerState := (player, true) :: s.playerState }
    if s1.hasStarted = false ∧ s1.connectedPlayerCount = R.playerCount then
      let s2 := { s1 with status := GameStatus.started }
      let s3 := { s2 with history := s2.history.recordTransition s2.game }
      let r := onStateChange R s3 false true
      some (r.1, Ev.start :: r.2)
    else some (s1, [])

/-- The method `move(player, move)` (lines 99-111).  `elapsed` is the think
time returned by `moveTimer.stop()`.  First component is the JS return value:
`none` for `null` (not started), `some false` for a rejected move, `some true`
for an applied one. -/
def GameInstance.move (R : Rules G) (s : GameInstance G) (player mv elapsed : Nat) :
    Option Bool × GameInstance G × List Ev :=
  if s.hasStarted = false then (none, s, [])
  else if R.isEnded s.game || !(R.isValidMove s.game player mv) then (some false, s, [])
  else
    let s1 := { s with timerRunning := false }
    let s2 := { s1 with game := R.move s1.game player mv elapsed }
    let s3 := { s2 with history := s2.history.recordMove player mv }
    let r := onStateChange R s3 true true
    (some true, r.1, Ev.move player mv :: r.2)

/-- The private method `_onMoveTimeout()` (lines 144-149): remember the next
player, ask the rules module to apply its timeout effect, and if it reports a
change run `_onStateChange` announcing the move only when the next player
changed. -/
def onMoveTimeoutFn (R : Rules G) (s : GameInstance G) : GameInstance G × List Ev :=
  let oldNextPlayer := R.getNextPlayer s.game
  let res := R.onMoveTimeout s.game
  let s1 := { s with game := res.2 }
  if res.1 then
    onStateChange R s1 true (decide (R.getNextPlayer s1.game ≠ oldNextPlayer))
  else (s1, [])

/-- The method `getHistory(player)` output: move records pass through, state
snapshots are projected through `getStateView` for the viewer. -/
inductive ReplayEvent : Type
| stateView (v : Nat)
| move (player : Nat) (mv : Nat)
deriving DecidableEq, Repr

/-- The method `getHistory(player)` (lines 125-130). -/
def GameInstance.getHistory (R : Rules G) (s : GameInstance G) (viewer : Option Nat) :
    List ReplayEvent :=
  s.history.events.map fun e =>
    match e with
    | HistEvent.state fs => ReplayEvent.stateView (R.getStateView fs viewer)
    | HistEvent.move p m => ReplayEvent.move p m

/-- One externally triggered operation on a session: a registration request
(with its requested slot, `0` for none, and the random token), a connect, a
move request (with the elapsed timer value observed by `moveTimer.stop`), or a
fire of the pending move timer. -/
inductive Op : Type
| register (player tok : Nat)
| connect (player : Nat)
| move (player mv elapsed : Nat)
| timerFire
deriving DecidableEq, Repr

/-- One step of the session under an operation, returning the next state and
the events emitted.  A `connect` that throws leaves the state unchanged (the
exception is raised before any mutation).  The timer can only fire while a
schedule is pending, and firing consumes the pending schedule. -/
def step (R : Rules G) (s : GameInstance G) : Op → GameInstance G × List Ev
| Op.register player tok => ((s.registerNewPlayer R player tok).2, [])
| Op.connect player =>
  match s.connect R player with
  | none => (s, [])
  | some r => r
| Op.move player mv elapsed =>
  let r := s.move R player mv elapsed
  (r.2.1, r.2.2)
| Op.timerFire =>
  if s.timerRunning then onMoveTimeoutFn R { s with timerRunning := false } else (s, [])

/-- Run a list of operations from a state, collecting all emitted events. -/
def run (R : Rules G) (s : GameInstance G) : List Op → GameInstance G × List Ev
| [] => (s, [])
| op :: ops =>
  let r1 := step R s op
  let r2 := run R r1.1 ops
  (r2.1, r1.2 ++ r2.2)

/-- The session state after running a list of operations. -/
def runState (R : Rules G) (s : GameInstance G) (ops : List Op) : GameInstance G :=
  (run R s ops).1

/-- The statuses visited along a run, in order (including the initial one). -/
def statusTrace (R : Rules G) (s : GameInstance G) : List Op → List GameStatus
| [] => [s.status]
| op :: ops => s.status :: statusTrace R (step R s op).1 ops

/-- Number of `start` events in an emission trace. -/
def countStart : List Ev → Nat
| [] => 0
| Ev.start :: rest => countStart rest + 1
| _ :: rest => countStart rest

/-- Checks that a history log never holds two adjacent state snapshots. -/
def noTwoConsecSnaps : List (HistEvent G) → Bool
| [] => true
| [_] => true
| a :: b :: rest =>
  match a, b with
  | HistEvent.state _, HistEvent.state _ => false
  | _, _ => noTwoConsecSnaps (b :: rest)

/-- Checks that a replayed log never holds two adjacent state views. -/
def noTwoConsecSnapViews : List ReplayEvent → Bool
| [] => true
| [_] => true
| a :: b :: rest =>
  match a, b with
  | ReplayEvent.stateView _, ReplayEvent.stateView _ => false
  | _, _ => noTwoConsecSnapViews (b :: rest)

/-- Checks that every state snapshot in a log is immediately followed by a
move record (so the log is a sequence of optional-snapshot/move blocks). -/
def snapsFollowedByMove : List (HistEvent G) → Bool
| [] => true
| HistEvent.move _ _ :: rest => snapsFollowedByMove rest
| [HistEvent.state _] => false
| HistEvent.state _ :: HistEvent.state _ :: _ => false
| HistEvent.state _ :: HistEvent.move _ _ :: rest => snapsFollowedByMove rest

/-- The pairs of statuses allowed along the documented chain
`NOT_STARTED → STARTED → {ENDED, ERROR}`: a later observation equals the
earlier one or lies strictly further along the chain. -/
def statusLe (a b : GameStatus) : Prop :=
  a = b ∨ a = GameStatus.not_started
    ∨ (a = GameStatus.started ∧ (b = GameStatus.ended ∨ b = GameStatus.error))

instance statusLe.decide (a b : GameStatus) : Decidable (statusLe a b) := by
  unfold statusLe
  infer_instance

/-- Indicator used for counting `start` emissions: 0 before the session has
started, 1 from then on. -/
def statusBit : GameStatus → Nat
| GameStatus.not_started => 0
| _ => 1

/-- Reachability invariant of a session: the timer only runs while the game is
in progress, a terminal status is justified by the rules module's current
`isEnded`/`isError` answers, and the number of registered players never
exceeds the rules module's player count. -/
def SessionInv (R : Rules G) (s : GameInstance G) : Prop :=
  (s.status = GameStatus.not_started → s.timerRunning = false)
  ∧ (s.status = GameStatus.ended →
      R.isEnded s.game = true ∧ R.isError s.game = false ∧ s.timerRunning = false)
  ∧ (s.status = GameStatus.error →
      R.isEnded s.game = true ∧ R.isError s.game = true ∧ s.timerRunning = false)
  ∧ s.currentPlayerCount ≤ R.playerCount

/-- History invariant maintained by runs that contain no timer fire: every
snapshot in the log is immediately followed by a move record, and no snapshot
is buffered before the session starts. -/
def HistInv (s : GameInstance G) : Prop :=
  snapsFollowedByMove s.history.events = true
  ∧ (s.status = GameStatus.not_started → s.history.next = none)

/-- Concrete single-player rules module used as a test harness: the game never
ends, every move is valid and increments the state, a timeout also increments
the state and reports a change, and the next player is always player 1. -/
def CRt : Rules Nat :=
  { playerCount := 1
    getParams := 7
    getNextPlayer := fun _ => 1
    isValidMove := fun _ _ _ => true
    move := fun g _ _ _ => g + 1
    isEnded := fun _ => false
    isError := fun _ => false
    getWinner := fun _ => 1
    getStateView := fun g _ => g
    getMoveTimeLimit := fun _ => 30
    onMoveTimeout := fun g => (false, g) }

/-- Concrete single-player rules module whose first move ends the game with no
error reported. -/
def CRend : Rules Nat :=
  { CRt with isEnded := fun g => decide (1 ≤ g) }

/-- Concrete single-player rules module whose first move ends the game with
the error flag set. -/
def CRerr : Rules Nat :=
  { CRend with isError := fun _ => true }

/-- Variant of `CRt` whose timeout effect reports a state change (the next
player stays player 1). -/
def CRtchg : Rules Nat :=
  { CRt with onMoveTimeout := fun g => (true, g + 1) }

/-! ## Basic lemmas -/

theorem hasStarted_false_iff (s : GameInstance G) :
    s.hasStarted = false ↔ s.status = GameStatus.not_started := by
  simp [GameInstance.hasStarted]

theorem hasStarted_true_iff (s : GameInstance G) :
    s.hasStarted = true ↔ s.status ≠ GameStatus.not_started := by
  simp [GameInstance.hasStarted]

/-- C6: `move` returns the distinct not-applicable value `null` exactly when
the session has not started, the illegal-move rejection `false` exactly when
the session has started but the rules module reports the game ended or the
move invalid, and `true` exactly when the move is applied; the three returned
values are pairwise distinct, so callers can tell the cases apart. -/
theorem move_result_kinds (R : Rules G) (s : GameInstance G) (p m t : Nat) :
    ((s.move R p m t).1 = none ↔ s.status = GameStatus.not_started)
    ∧ ((s.move R p m t).1 = some false ↔
        (s.status ≠ GameStatus.not_started
          ∧ (R.isEnded s.game = true ∨ R.isValidMove s.game p m = false)))
    ∧ ((s.move R p m t).1 = some true ↔
        (s.status ≠ GameStatus.not_started
          ∧ R.isEnded s.game = false ∧ R.isValidMove s.game p m = true)) := by
  unfold GameInstance.move
  by_cases h : s.status = GameStatus.not_started
  · simp [GameInstance.hasStarted, h]
  · cases he : R.isEnded s.game <;> cases hv : R.isValidMove s.game p m <;>
      simp [GameInstance.hasStarted, h, he, hv]

/-- C10: `connect(p)` throws (dereferences the missing per-player record,
modelled by the `none` result) exactly when `p` was never registered; for a
registered player it always returns normally. -/
theorem connect_throws_iff_unregistered (R : Rules G) (s : GameInstance G) (p : Nat) :
    s.connect R p = none ↔ s.playerState.lookup p = none := by
  unfold GameInstance.connect
  cases h : s.playerState.lookup p with
  | none => simp
  | some b =>
    cases b with
    | false =>
      simp only [Option.some.injEq]
      split <;> simp
    | true => simp

/-- C3 (amended): the session summary always contains the identifier, params,
connected player count, total player count and status; it contains
`nextPlayer` exactly while the status is STARTED, and `winner` exactly while
the status is ENDED (the field is absent in the ERROR status). -/
theorem getInfo_fields (R : Rules G) (s : GameInstance G) :
    (s.getInfo R).gameId = s.id
    ∧ (s.getInfo R).params = R.getParams
    ∧ (s.getInfo R).connectedPlayers = s.connectedPlayerCount
    ∧ (s.getInfo R).players = R.playerCount
    ∧ (s.getInfo R).status = s.status
    ∧ ((s.getInfo R).nextPlayer.isSome = true ↔ s.status = GameStatus.started)
    ∧ (s.status = GameStatus.started →
        (s.getInfo R).nextPlayer = some (some (R.getNextPlayer s.game)))
    ∧ ((s.getInfo R).winner.isSome = true ↔ s.status = GameStatus.ended)
    ∧ (s.status = GameStatus.ended →
        (s.getInfo R).winner = some (some (R.getWinner s.game))) := by
  cases hs : s.status <;>
    simp [GameInstance.getInfo, GameInstance.getNextPlayer, GameInstance.getWinner,
      GameInstance.hasStarted, hs]

/-- C3 counterexample: in a session driven into the ERROR status, the summary
omits the `winner` field, contradicting the claim that `winner` is present
while the status is ENDED or ERROR. -/
theorem getInfo_error_winner_absent :
    (GameInstance.getInfo CRerr (runState CRerr (GameInstance.init 0 0)
        [Op.register 1 5, Op.connect 1, Op.move 1 0 0])).status = GameStatus.error
    ∧ (GameInstance.getInfo CRerr (runState CRerr (GameInstance.init 0 0)
        [Op.register 1 5, Op.connect 1, Op.move 1 0 0])).winner = none := by
  decide

/-- C5: a `connect` by a registered, not-yet-connected player that raises the
connected count to the player count while the session has not started (and the
rules module does not already report the game ended) sets the status to
STARTED, emits `start` and then `waitingForMove` with the rules module's next
player — and no `stateChange` — records the state transition into the history
(buffering the snapshot), and starts the turn timer. -/
theorem connect_start_transition (R : Rules G) (s : GameInstance G) (p : Nat)
    (hns : s.status = GameStatus.not_started)
    (hreg : s.playerState.lookup p = some false)
    (hcnt : s.connectedPlayerCount + 1 = R.playerCount)
    (hne : R.isEnded s.game = false) :
    s.connect R p =
      some ({ s with
          status := GameStatus.started
          history := s.history.recordTransition s.game
          connectedPlayerCount := s.connectedPlayerCount + 1
          playerState := (p, true) :: s.playerState
          timerRunning := true },
        [Ev.start, Ev.waitingForMove (R.getNextPlayer s.game)]) := by
  unfold GameInstance.connect onStateChange
  simp [hreg, GameInstance.hasStarted, hns, hcnt, hne]

/-- C5 witness at a concrete input. -/
theorem connect_start_transition_witness :
    (((GameInstance.init 0 0).registerNewPlayer CRt 1 5).2).connect CRt 1 =
      some ({ ((GameInstance.init 0 0).registerNewPlayer CRt 1 5).2 with
          status := GameStatus.started
          history := History.recordTransition 0 { events := [], next := none }
          connectedPlayerCount := 1
          playerState := (1, true) :: [(1, false)]
          timerRunning := true },
        [Ev.start, Ev.waitingForMove 1]) := by
  have h := connect_start_transition CRt (((GameInstance.init 0 0).registerNewPlayer CRt 1 5).2) 1
    (by decide) (by decide) (by decide) (by decide)
  exact h.trans (by decide)

/-- C2 (amended): a successful move after which the rules module reports
`isEnded()` (with no error flag) returns the applied value, emits `move` with
that player and payload and then `end` and nothing else, sets the status to
ENDED, and every subsequent `move` call returns the illegal-move rejection
value `false` (not the game-not-started value `null`). -/
theorem move_winning (R : Rules G) (s : GameInstance G) (p m t : Nat)
    (hst : s.status = GameStatus.started)
    (hne : R.isEnded s.game = false)
    (hv : R.isValidMove s.game p m = true)
    (hend : R.isEnded (R.move s.game p m t) = true)
    (herr : R.isError (R.move s.game p m t) = false) :
    (s.move R p m t).1 = some true
    ∧ (s.move R p m t).2.2 = [Ev.move p m, Ev.endGame]
    ∧ (s.move R p m t).2.1.status = GameStatus.ended
    ∧ (∀ p2 m2 t2, ((s.move R p m t).2.1.move R p2 m2 t2).1 = some false) := by
  unfold GameInstance.move onStateChange
  simp [GameInstance.hasStarted, hst, hne, hv, hend, herr]

/-- C2 witness at a concrete input. -/
theorem move_winning_witness :
    ((runState CRend (GameInstance.init 0 0) [Op.register 1 5, Op.connect 1]).move CRend 1 0 0).1
        = some true
    ∧ ((runState CRend (GameInstance.init 0 0) [Op.register 1 5, Op.connect 1]).move
        CRend 1 0 0).2.2 = [Ev.move 1 0, Ev.endGame]
    ∧ ((runState CRend (GameInstance.init 0 0) [Op.register 1 5, Op.connect 1]).move
        CRend 1 0 0).2.1.status = GameStatus.ended
    ∧ (∀ p2 m2 t2, (((runState CRend (GameInstance.init 0 0)
        [Op.register 1 5, Op.connect 1]).move CRend 1 0 0).2.1.move CRend p2 m2 t2).1
          = some false) :=
  move_winning CRend (runState CRend (GameInstance.init 0 0) [Op.register 1 5, Op.connect 1])
    1 0 0 (by decide) (by decide) (by decide) (by decide) (by decide)

/-- C2 counterexample: after a winning move the session status is ENDED, and a
subsequent `move` call returns `false` — the illegal-move rejection — not the
game-not-started value `null`, so the claim's final clause fails on the code. -/
theorem move_after_end_counterexample :
    (runState CRend (GameInstance.init 0 0)
        [Op.register 1 5, Op.connect 1, Op.move 1 0 0]).status = GameStatus.ended
    ∧ ((runState CRend (GameInstance.init 0 0)
        [Op.register 1 5, Op.connect 1, Op.move 1 0 0]).move CRend 1 0 0).1 = some false
    ∧ ((runState CRend (GameInstance.init 0 0)
        [Op.register 1 5, Op.connect 1, Op.move 1 0 0]).move CRend 1 0 0).1 ≠ none := by
  decide

/-- C9: when the pending turn timer fires, the fire consumes the schedule;
if the rules module's `onMoveTimeout` reports no state change the session does
no bookkeeping (no events, no history or status change) and the timer is not
restarted; if it reports a change, the shared post-move bookkeeping runs:
while the game has not ended it records the transition into the history, emits
`stateChange`, re-emits `waitingForMove` only when the next player now differs
from the player who was on the clock, and restarts the timer; when the game
has ended it only sets the terminal status and emits `end`. -/
theorem timeout_spec (R : Rules G) (s : GameInstance G) (h : s.timerRunning = true) :
    ((R.onMoveTimeout s.game).1 = false →
      step R s Op.timerFire =
        ({ s with game := (R.onMoveTimeout s.game).2, timerRunning := false }, []))
    ∧ ((R.onMoveTimeout s.game).1 = true → R.isEnded (R.onMoveTimeout s.game).2 = false →
      step R s Op.timerFire =
        ({ s with
            game := (R.onMoveTimeout s.game).2
            history := s.history.recordTransition (R.onMoveTimeout s.game).2
            timerRunning := true },
          Ev.stateChange ::
            (if R.getNextPlayer (R.onMoveTimeout s.game).2 ≠ R.getNextPlayer s.game then
              [Ev.waitingForMove (R.getNextPlayer (R.onMoveTimeout s.game).2)]
            else [])))
    ∧ ((R.onMoveTimeout s.game).1 = true → R.isEnded (R.onMoveTimeout s.game).2 = true →
      step R s Op.timerFire =
        ({ s with
            game := (R.onMoveTimeout s.game).2
            timerRunning := false
            status := if R.isError (R.onMoveTimeout s.game).2 then GameStatus.error
              else GameStatus.ended },
          [Ev.endGame])) := by
  refine ⟨fun hc => ?_, fun hc hne => ?_, fun hc he => ?_⟩ <;>
    simp [step, onMoveTimeoutFn, onStateChange, h, hc, History.recordTransition]
  · simp [hne]
  · simp [he]

/-! ## Association-list and slot-search lemmas -/

theorem lookup_isSome_iff_mem (ps : List (Nat × Bool)) (k : Nat) :
    (ps.lookup k).isSome = true ↔ k ∈ ps.map Prod.fst := by
  induction ps with
  | nil => simp [List.lookup]
  | cons a tl ih =>
    by_cases h : k = a.1
    · simp [List.lookup, h]
    · have hb : (k == a.1) = false := by simpa using h
      simp [List.lookup, hb, ih, h]

theorem countP_le_of_imp (l : List Nat) (p q : Nat → Bool)
    (h : ∀ a ∈ l, p a = true → q a = true) :
    l.countP p ≤ l.countP q := by
  induction l with
  | nil => simp
  | cons a tl ih =>
    rw [List.countP_cons, List.countP_cons]
    have h1 := ih fun x hx => h x (List.mem_cons_of_mem a hx)
    by_cases hp : p a = true
    · have hq := h a (List.mem_cons_self a tl) hp
      simp [hp, hq]
      omega
    · have hp2 : p a = false := by simpa using hp
      simp [hp2]
      omega

theorem countP_lt_of_mem (l : List Nat) (st : Nat) (h : st ∈ l) :
    l.countP (fun k => decide (st + 1 ≤ k)) < l.countP (fun k => decide (st ≤ k)) := by
  induction l with
  | nil => simp at h
  | cons a tl ih =>
    rw [List.countP_cons, List.countP_cons]
    have hmono : tl.countP (fun k => decide (st + 1 ≤ k)) ≤ tl.countP (fun k => decide (st ≤ k)) :=
      countP_le_of_imp tl _ _ (fun x _ hx => by simp at hx ⊢; omega)
    rcases List.mem_cons.mp h with h1 | h1
    · have h2 : ¬ (st + 1 ≤ a) := by omega
      have h3 : st ≤ a := by omega
      simp [h2, h3]
      omega
    · have := ih h1
      by_cases ha : st + 1 ≤ a
      · have hb : st ≤ a := by omega
        simp [ha, hb]
        omega
      · by_cases hb : st ≤ a <;> simp [ha, hb] <;> omega

theorem firstFreeSlot_lookup_none (ps : List (Nat × Bool)) :
    ∀ fuel st, (ps.map Prod.fst).countP (fun k => decide (st ≤ k)) < fuel →
      (ps.lookup (firstFreeSlot ps fuel st)).isSome = false := by
  intro fuel
  induction fuel with
  | zero => intro st h; omega
  | succ n ih =>
    intro st h
    by_cases hl : (ps.lookup st).isSome = true
    · have hmem : st ∈ ps.map Prod.fst := (lookup_isSome_iff_mem ps st).mp hl
      have hlt := countP_lt_of_mem (ps.map Prod.fst) st hmem
      simp only [firstFreeSlot, hl, if_true]
      exact ih (st + 1) (by omega)
    · have hl2 : (ps.lookup st).isSome = false := Bool.eq_false_iff.mpr hl
      simp [firstFreeSlot, hl2]

theorem firstFreeSlot_ge (ps : List (Nat × Bool)) :
    ∀ fuel st, st ≤ firstFreeSlot ps fuel st := by
  intro fuel
  induction fuel with
  | zero => intro st; simp [firstFreeSlot]
  | succ n ih =>
    intro st
    by_cases hl : (ps.lookup st).isSome = true
    · simp only [firstFreeSlot, hl, if_true]
      have := ih (st + 1)
      omega
    · have hl2 : (ps.lookup st).isSome = false := Bool.eq_false_iff.mpr hl
      simp [firstFreeSlot, hl2]

theorem firstFreeSlot_min (ps : List (Nat × Bool)) :
    ∀ fuel st k, st ≤ k → k < firstFreeSlot ps fuel st →
      (ps.lookup k).isSome = true := by
  intro fuel
  induction fuel with
  | zero =>
    intro st k h1 h2
    simp [firstFreeSlot] at h2
    omega
  | succ n ih =>
    intro st k h1 h2
    by_cases hl : (ps.lookup st).isSome = true
    · simp only [firstFreeSlot, hl, if_true] at h2
      by_cases hk : k = st
      · subst hk; exact hl
      · exact ih (st + 1) k (by omega) h2
    · have hl2 : (ps.lookup st).isSome = false := Bool.eq_false_iff.mpr hl
      simp [firstFreeSlot, hl2] at h2
      omega

/-! ## Projection lemmas for the shared bookkeeping -/

theorem onStateChange_proj (R : Rules G) (s : GameInstance G) (a b : Bool) :
    (onStateChange R s a b).1.currentPlayerCount = s.currentPlayerCount
    ∧ (onStateChange R s a b).1.connectedPlayerCount = s.connectedPlayerCount
    ∧ (onStateChange R s a b).1.playerState = s.playerState
    ∧ (onStateChange R s a b).1.playerTokenTable = s.playerTokenTable
    ∧ (onStateChange R s a b).1.game = s.game
    ∧ (onStateChange R s a b).1.id = s.id := by
  unfold onStateChange
  cases he : R.isEnded s.game <;> cases a <;> simp [he]

theorem onStateChange_not_ended (R : Rules G) (s : GameInstance G) (a b : Bool)
    (he : R.isEnded s.game = false) :
    (onStateChange R s a b).1.status = s.status
    ∧ (onStateChange R s a b).1.timerRunning = true := by
  unfold onStateChange
  cases a <;> simp [he]

theorem onStateChange_ended (R : Rules G) (s : GameInstance G) (a b : Bool)
    (he : R.isEnded s.game = true) :
    (onStateChange R s a b).1 =
      { s with status := if R.isError s.game then GameStatus.error else GameStatus.ended }
    ∧ (onStateChange R s a b).2 = [Ev.endGame] := by
  unfold onStateChange
  simp [he]

theorem step_count (R : Rules G) (s : GameInstance G) (op : Op) :
    (step R s op).1.currentPlayerCount = s.currentPlayerCount
    ∨ ((step R s op).1.currentPlayerCount = s.currentPlayerCount + 1
        ∧ s.currentPlayerCount ≠ R.playerCount) := by
  cases op with
  | register player tok =>
    simp only [step]
    unfold GameInstance.registerNewPlayer
    split_ifs with h1 h2 h3
    · left; rfl
    · left; rfl
    · right; exact ⟨rfl, h2⟩
    · right; exact ⟨rfl, h2⟩
  | connect player =>
    simp only [step]
    unfold GameInstance.connect
    cases hl : s.playerState.lookup player with
    | none => left; rfl
    | some b =>
      cases b with
      | true => left; rfl
      | false =>
        dsimp only
        split
        · left; rfl
        · next r heq =>
          split at heq
          · cases heq
            left
            simpa using (onStateChange_proj R _ false true).1
          · cases heq
            left; rfl
  | move player mv elapsed =>
    simp only [step]
    unfold GameInstance.move
    dsimp only
    split
    · left; rfl
    · split
      · left; rfl
      · left
        simpa using (onStateChange_proj R _ true true).1
  | timerFire =>
    simp only [step]
    split
    · unfold onMoveTimeoutFn
      dsimp only
      split
      · left
        simpa using (onStateChange_proj R _ true _).1
      · left; rfl
    · left; rfl

theorem run_count_le (R : Rules G) (s : GameInstance G) (ops : List Op)
    (h : s.currentPlayerCount ≤ R.playerCount) :
    (run R s ops).1.currentPlayerCount ≤ R.playerCount := by
  induction ops generalizing s with
  | nil => simpa [run]
  | cons op ops ih =>
    simp only [run]
    apply ih
    rcases step_count R s op with hc | hc
    · omega
    · omega

theorem lookup_eq_none_of_isSome_false {ps : List (Nat × Bool)} {k : Nat}
    (h : (ps.lookup k).isSome = false) : ps.lookup k = none := by
  cases hl : ps.lookup k with
  | none => rfl
  | some v => rw [hl] at h; simp at h

/-- C7: `registerNewPlayer` fails returning `null` and mutating nothing
exactly when the requested slot is already registered or the room is full;
otherwise it registers exactly one player — the requested slot, or the lowest
unused integer slot at least 1 when none is requested — stores the issued
token for that slot, increments the registered count, and initialises the
player as not yet connected.  Over any operation sequence the registered count
never exceeds the rules module's player count, and once it equals it every
further registration fails. -/
theorem register_spec (R : Rules G) (s : GameInstance G) (player tok : Nat)
    (id0 : Nat) (g0 : G) (ops : List Op) :
    ((s.registerNewPlayer R player tok).1 = none ↔
      ((player ≠ 0 ∧ (s.playerState.lookup player).isSome = true)
        ∨ s.currentPlayerCount = R.playerCount))
    ∧ ((s.registerNewPlayer R player tok).1 = none → (s.registerNewPlayer R player tok).2 = s)
    ∧ ((s.registerNewPlayer R player tok).1 ≠ none →
        ∃ p, (s.registerNewPlayer R player tok) =
            (some (p, tok),
              { s with
                currentPlayerCount := s.currentPlayerCount + 1
                playerTokenTable := (tok, p) :: s.playerTokenTable
                playerState := (p, false) :: s.playerState })
          ∧ s.playerState.lookup p = none
          ∧ 1 ≤ p
          ∧ (player ≠ 0 → p = player)
          ∧ (player = 0 → ∀ k, 1 ≤ k → k < p → (s.playerState.lookup k).isSome = true))
    ∧ (runState R (GameInstance.init id0 g0) ops).currentPlayerCount ≤ R.playerCount
    ∧ ((runState R (GameInstance.init id0 g0) ops).currentPlayerCount = R.playerCount →
        ((runState R (GameInstance.init id0 g0) ops).registerNewPlayer R player tok).1
          = none) := by
  refine ⟨?_, ?_, ?_, ?_, ?_⟩
  · unfold GameInstance.registerNewPlayer
    split_ifs with h1 h2
    · simp [h1]
    · simp [h2]
    · constructor
      · intro hc; simp at hc
      · intro hc
        rcases hc with hc | hc
        · exact absurd hc h1
        · exact absurd hc h2
  · unfold GameInstance.registerNewPlayer
    split_ifs with h1 h2 <;> simp
  · intro hne
    unfold GameInstance.registerNewPlayer at hne ⊢
    split_ifs at hne ⊢ with h1 h2 hp0
    · simp at hne
    · simp at hne
    · refine ⟨firstFreeSlot s.playerState (s.playerState.length + 1) 1, ?_, ?_, ?_, ?_, ?_⟩
      · rfl
      · apply lookup_eq_none_of_isSome_false
        apply firstFreeSlot_lookup_none
        have hle : (s.playerState.map Prod.fst).countP (fun k => decide (1 ≤ k))
            ≤ (s.playerState.map Prod.fst).length := List.countP_le_length _
        rw [List.length_map] at hle
        omega
      · exact firstFreeSlot_ge s.playerState _ 1
      · intro hcon; exact absurd hp0 hcon
      · intro _ k hk1 hk2
        exact firstFreeSlot_min s.playerState _ 1 k hk1 hk2
    · refine ⟨player, ?_, ?_, ?_, ?_, ?_⟩
      · rfl
      · apply lookup_eq_none_of_isSome_false
        rcases Bool.eq_false_or_eq_true ((s.playerState.lookup player).isSome) with h | h
        · exact absurd ⟨hp0, h⟩ h1
        · exact h
      · omega
      · intro _; rfl
      · intro hcon; exact absurd hcon hp0
  · exact run_count_le R _ ops (Nat.zero_le _)
  · intro hfull
    unfold GameInstance.registerNewPlayer
    by_cases h1 : player ≠ 0
      ∧ ((runState R (GameInstance.init id0 g0) ops).playerState.lookup player).isSome = true
    · rw [if_pos h1]
    · rw [if_neg h1, if_pos hfull]

/-- C7 witness at a concrete input: with a one-player rules module, one
registration fills the room and the next registration fails. -/
theorem register_spec_witness :
    (runState CRt (GameInstance.init 0 0) [Op.register 0 5]).currentPlayerCount = CRt.playerCount
    ∧ ((runState CRt (GameInstance.init 0 0) [Op.register 0 5]).registerNewPlayer
        CRt 0 6).1 = none :=
  ⟨by decide,
    (register_spec CRt (runState CRt (GameInstance.init 0 0) [Op.register 0 5]) 0 6 0 0
      [Op.register 0 5]).2.2.2.2 (by decide)⟩

/-! ## Session invariant machinery -/

theorem sessionInv_init (R : Rules G) (id0 : Nat) (g0 : G) :
    SessionInv R (GameInstance.init id0 g0) := by
  unfold SessionInv GameInstance.init
  refine ⟨fun _ => rfl, fun h => ?_, fun h => ?_, Nat.zero_le _⟩ <;> simp at h

theorem onStateChange_inv (R : Rules G) (s : GameInstance G) (a b : Bool)
    (hst : s.status = GameStatus.started) (ht : s.timerRunning = false)
    (hc : s.currentPlayerCount ≤ R.playerCount) :
    SessionInv R (onStateChange R s a b).1 := by
  have hcount : (onStateChange R s a b).1.currentPlayerCount = s.currentPlayerCount :=
    (onStateChange_proj R s a b).1
  have hgame : (onStateChange R s a b).1.game = s.game :=
    (onStateChange_proj R s a b).2.2.2.2.1
  unfold SessionInv
  cases he : R.isEnded s.game with
  | false =>
    obtain ⟨hsts, _⟩ := onStateChange_not_ended R s a b he
    refine ⟨?_, ?_, ?_, ?_⟩
    · intro hh; rw [hsts, hst] at hh; simp at hh
    · intro hh; rw [hsts, hst] at hh; simp at hh
    · intro hh; rw [hsts, hst] at hh; simp at hh
    · rw [hcount]; exact hc
  | true =>
    obtain ⟨hres, _⟩ := onStateChange_ended R s a b he
    cases herr : R.isError s.game with
    | true =>
      refine ⟨?_, ?_, ?_, ?_⟩
      · intro hh; rw [hres] at hh; simp [herr] at hh
      · intro hh; rw [hres] at hh; simp [herr] at hh
      · intro _
        refine ⟨?_, ?_, ?_⟩
        · rw [hgame]; exact he
        · rw [hgame]; exact herr
        · rw [hres]; simpa using ht
      · rw [hcount]; exact hc
    | false =>
      refine ⟨?_, ?_, ?_, ?_⟩
      · intro hh; rw [hres] at hh; simp [herr] at hh
      · intro _
        refine ⟨?_, ?_, ?_⟩
        · rw [hgame]; exact he
        · rw [hgame]; exact herr
        · rw [hres]; simpa using ht
      · intro hh; rw [hres] at hh; simp [herr] at hh
      · rw [hcount]; exact hc

theorem onStateChange_status_cases (R : Rules G) (s : GameInstance G) (a b : Bool) :
    (onStateChange R s a b).1.status = s.status
    ∨ (onStateChange R s a b).1.status = GameStatus.ended
    ∨ (onStateChange R s a b).1.status = GameStatus.error := by
  unfold onStateChange
  cases he : R.isEnded s.game with
  | false => cases a <;> simp [he]
  | true => cases herr : R.isError s.game <;> simp [he, herr]

theorem onStateChange_statusLe (R : Rules G) (s : GameInstance G) (a b : Bool)
    (hst : s.status = GameStatus.started) :
    statusLe s.status (onStateChange R s a b).1.status := by
  unfold onStateChange statusLe
  cases he : R.isEnded s.game with
  | false => cases a <;> simp [he]
  | true =>
    cases herr : R.isError s.game <;> simp [he, herr, hst]

theorem step_inv (R : Rules G) (s : GameInstance G) (op : Op) (h : SessionInv R s) :
    SessionInv R (step R s op).1 := by
  obtain ⟨hns, hen, her, hc⟩ := h
  cases op with
  | register player tok =>
    simp only [step]
    unfold GameInstance.registerNewPlayer
    split_ifs with h1 h2 h3
    · exact ⟨hns, hen, her, hc⟩
    · exact ⟨hns, hen, her, hc⟩
    · refine ⟨hns, hen, her, ?_⟩
      show s.currentPlayerCount + 1 ≤ R.playerCount
      omega
    · refine ⟨hns, hen, her, ?_⟩
      show s.currentPlayerCount + 1 ≤ R.playerCount
      omega
  | connect player =>
    simp only [step]
    unfold GameInstance.connect
    cases hl : s.playerState.lookup player with
    | none => exact ⟨hns, hen, her, hc⟩
    | some b =>
      cases b with
      | true => exact ⟨hns, hen, her, hc⟩
      | false =>
        dsimp only
        split
        · exact ⟨hns, hen, her, hc⟩
        · next r heq =>
          split at heq
          · next hcond =>
            cases heq
            have hns2 : s.status = GameStatus.not_started := by
              simpa [GameInstance.hasStarted] using hcond.1
            exact onStateChange_inv R _ false true rfl (hns hns2) hc
          · cases heq
            exact ⟨hns, hen, her, hc⟩
  | move player mv elapsed =>
    simp only [step]
    unfold GameInstance.move
    dsimp only
    split
    · exact ⟨hns, hen, her, hc⟩
    · next hstarted =>
      split
      · exact ⟨hns, hen, her, hc⟩
      · next hnotrej =>
        have hst : s.status = GameStatus.started := by
          cases hs : s.status with
          | not_started => exact absurd (by simp [GameInstance.hasStarted, hs]) hstarted
          | started => rfl
          | ended => exact absurd (by simp [(hen hs).1]) hnotrej
          | error => exact absurd (by simp [(her hs).1]) hnotrej
        exact onStateChange_inv R _ true true hst rfl hc
  | timerFire =>
    simp only [step]
    split
    · next htr =>
      have hst : s.status = GameStatus.started := by
        cases hs : s.status with
        | not_started => rw [hns hs] at htr; exact absurd htr (by simp)
        | started => rfl
        | ended => rw [(hen hs).2.2] at htr; exact absurd htr (by simp)
        | error => rw [(her hs).2.2] at htr; exact absurd htr (by simp)
      unfold onMoveTimeoutFn
      dsimp only
      split
      · exact onStateChange_inv R _ true _ hst rfl hc
      · refine ⟨?_, ?_, ?_, hc⟩ <;> intro hh <;> rw [hst] at hh <;> simp at hh
    · exact ⟨hns, hen, her, hc⟩

theorem step_statusLe (R : Rules G) (s : GameInstance G) (op : Op) (h : SessionInv R s) :
    statusLe s.status (step R s op).1.status := by
  obtain ⟨hns, hen, her, hc⟩ := h
  cases op with
  | register player tok =>
    simp only [step]
    unfold GameInstance.registerNewPlayer
    split_ifs <;> exact Or.inl rfl
  | connect player =>
    simp only [step]
    unfold GameInstance.connect
    cases hl : s.playerState.lookup player with
    | none => exact Or.inl rfl
    | some b =>
      cases b with
      | true => exact Or.inl rfl
      | false =>
        dsimp only
        split
        · exact Or.inl rfl
        · next r heq =>
          split at heq
          · next hcond =>
            cases heq
            have hns2 : s.status = GameStatus.not_started := by
              simpa [GameInstance.hasStarted] using hcond.1
            exact Or.inr (Or.inl hns2)
          · cases heq
            exact Or.inl rfl
  | move player mv elapsed =>
    simp only [step]
    unfold GameInstance.move
    dsimp only
    split
    · exact Or.inl rfl
    · next hstarted =>
      split
      · exact Or.inl rfl
      · next hnotrej =>
        have hst : s.status = GameStatus.started := by
          cases hs : s.status with
          | not_started => exact absurd (by simp [GameInstance.hasStarted, hs]) hstarted
          | started => rfl
          | ended => exact absurd (by simp [(hen hs).1]) hnotrej
          | error => exact absurd (by simp [(her hs).1]) hnotrej
        dsimp only
        exact onStateChange_statusLe R
          { s with
            history := History.recordMove player mv s.history
            game := R.move s.game player mv elapsed
            timerRunning := false }
          true true hst
  | timerFire =>
    simp only [step]
    split
    · next htr =>
      have hst : s.status = GameStatus.started := by
        cases hs : s.status with
        | not_started => rw [hns hs] at htr; exact absurd htr (by simp)
        | started => rfl
        | ended => rw [(hen hs).2.2] at htr; exact absurd htr (by simp)
        | error => rw [(her hs).2.2] at htr; exact absurd htr (by simp)
      unfold onMoveTimeoutFn
      dsimp only
      split
      · exact onStateChange_statusLe R
          { s with game := (R.onMoveTimeout s.game).2, timerRunning := false }
          true (decide (R.getNextPlayer (R.onMoveTimeout s.game).2 ≠ R.getNextPlayer s.game)) hst
      · exact Or.inl rfl
    · exact Or.inl rfl

theorem run_inv (R : Rules G) (s : GameInstance G) (ops : List Op) (h : SessionInv R s) :
    SessionInv R (run R s ops).1 := by
  induction ops generalizing s with
  | nil => simpa [run]
  | cons op ops ih =>
    simp only [run]
    exact ih _ (step_inv R s op h)

theorem statusTrace_head (R : Rules G) (s : GameInstance G) (ops : List Op) :
    (statusTrace R s ops).head? = some s.status := by
  cases ops <;> simp [statusTrace]

theorem run_chain (R : Rules G) (s : GameInstance G) (ops : List Op) (h : SessionInv R s) :
    List.Chain' statusLe (statusTrace R s ops) := by
  induction ops generalizing s with
  | nil => simp [statusTrace]
  | cons op ops ih =>
    rw [statusTrace, List.chain'_cons']
    constructor
    · intro b hb
      rw [statusTrace_head] at hb
      rw [Option.mem_def, Option.some.injEq] at hb
      subst hb
      exact step_statusLe R s op h
    · exact ih _ (step_inv R s op h)

/-- C4: starting from a fresh session, under every operation sequence the
statuses visited in order form a chain along
NOT_STARTED → STARTED → {ENDED, ERROR} and never regress, and whenever the
status is ERROR the rules module reports the game ended with its error flag
set. -/
theorem status_monotone (R : Rules G) (id0 : Nat) (g0 : G) (ops : List Op) :
    List.Chain' statusLe (statusTrace R (GameInstance.init id0 g0) ops)
    ∧ ((runState R (GameInstance.init id0 g0) ops).status = GameStatus.error →
        R.isEnded (runState R (GameInstance.init id0 g0) ops).game = true
        ∧ R.isError (runState R (GameInstance.init id0 g0) ops).game = true) := by
  constructor
  · exact run_chain R _ ops (sessionInv_init R id0 g0)
  · intro herr
    obtain ⟨_, _, hinv, _⟩ := run_inv R _ ops (sessionInv_init R id0 g0)
    exact ⟨(hinv herr).1, (hinv herr).2.1⟩

/-- C4 witness at a concrete input. -/
theorem status_monotone_witness :
    List.Chain' statusLe (statusTrace CRend (GameInstance.init 0 0)
      [Op.register 1 5, Op.connect 1, Op.move 1 0 0, Op.move 1 0 0])
    ∧ ((runState CRend (GameInstance.init 0 0)
        [Op.register 1 5, Op.connect 1, Op.move 1 0 0, Op.move 1 0 0]).status
          = GameStatus.error →
        CRend.isEnded (runState CRend (GameInstance.init 0 0)
          [Op.register 1 5, Op.connect 1, Op.move 1 0 0, Op.move 1 0 0]).game = true
        ∧ CRend.isError (runState CRend (GameInstance.init 0 0)
          [Op.register 1 5, Op.connect 1, Op.move 1 0 0, Op.move 1 0 0]).game = true) :=
  status_monotone CRend 0 0 [Op.register 1 5, Op.connect 1, Op.move 1 0 0, Op.move 1 0 0]

/-! ## Start-emission counting -/

theorem countStart_append (l1 l2 : List Ev) :
    countStart (l1 ++ l2) = countStart l1 + countStart l2 := by
  induction l1 with
  | nil => simp [countStart]
  | cons e l ih => cases e <;> simp [countStart, ih] <;> omega

theorem onStateChange_countStart (R : Rules G) (s : GameInstance G) (a b : Bool) :
    countStart (onStateChange R s a b).2 = 0 := by
  unfold onStateChange
  cases he : R.isEnded s.game <;> cases a <;> cases b <;>
    simp [he, countStart, countStart_append]

theorem statusBit_le_one (st : GameStatus) : statusBit st ≤ 1 := by
  cases st <;> simp [statusBit]

theorem onStateChange_statusBit (R : Rules G) (s : GameInstance G) (a b : Bool)
    (hst : s.status = GameStatus.started) :
    statusBit (onStateChange R s a b).1.status = 1 := by
  rcases onStateChange_status_cases R s a b with hcs | hcs | hcs <;> rw [hcs] <;>
    simp [hst, statusBit]

theorem step_countStart (R : Rules G) (s : GameInstance G) (op : Op) (h : SessionInv R s) :
    countStart (step R s op).2 + statusBit s.status = statusBit (step R s op).1.status := by
  obtain ⟨hns, hen, her, hc⟩ := h
  cases op with
  | register player tok =>
    simp only [step]
    unfold GameInstance.registerNewPlayer
    split_ifs <;> simp [countStart]
  | connect player =>
    simp only [step]
    unfold GameInstance.connect
    cases hl : s.playerState.lookup player with
    | none => simp [countStart]
    | some b =>
      cases b with
      | true => simp [countStart]
      | false =>
        dsimp only
        split
        · simp [countStart]
        · next r heq =>
          split at heq
          · next hcond =>
            cases heq
            have hns2 : s.status = GameStatus.not_started := by
              simpa [GameInstance.hasStarted] using hcond.1
            dsimp only
            rw [hns2]
            have hbit := onStateChange_statusBit R
              { s with
                connectedPlayerCount := s.connectedPlayerCount + 1
                playerState := (player, true) :: s.playerState
                status := GameStatus.started
                history := History.recordTransition s.game s.history }
              false true rfl
            rw [hbit]
            simp [countStart, statusBit, onStateChange_countStart]
          · cases heq
            simp [countStart]
  | move player mv elapsed =>
    simp only [step]
    unfold GameInstance.move
    dsimp only
    split
    · simp [countStart]
    · next hstarted =>
      split
      · simp [countStart]
      · next hnotrej =>
        have hst : s.status = GameStatus.started := by
          cases hs : s.status with
          | not_started => exact absurd (by simp [GameInstance.hasStarted, hs]) hstarted
          | started => rfl
          | ended => exact absurd (by simp [(hen hs).1]) hnotrej
          | error => exact absurd (by simp [(her hs).1]) hnotrej
        dsimp only
        have hbit := onStateChange_statusBit R
          { s with
            history := History.recordMove player mv s.history
            game := R.move s.game player mv elapsed
            timerRunning := false }
          true true hst
        rw [hbit, hst]
        simp [countStart, statusBit, onStateChange_countStart]
  | timerFire =>
    simp only [step]
    split
    · next htr =>
      have hst : s.status = GameStatus.started := by
        cases hs : s.status with
        | not_started => rw [hns hs] at htr; exact absurd htr (by simp)
        | started => rfl
        | ended => rw [(hen hs).2.2] at htr; exact absurd htr (by simp)
        | error => rw [(her hs).2.2] at htr; exact absurd htr (by simp)
      unfold onMoveTimeoutFn
      dsimp only
      split
      · have hbit := onStateChange_statusBit R
          { s with game := (R.onMoveTimeout s.game).2, timerRunning := false }
          true (decide (R.getNextPlayer (R.onMoveTimeout s.game).2
            ≠ R.getNextPlayer s.game)) hst
        rw [hbit, hst]
        simp [statusBit, onStateChange_countStart]
      · simp [countStart]
    · simp [countStart]

theorem run_countStart (R : Rules G) (s : GameInstance G) (ops : List Op)
    (h : SessionInv R s) :
    countStart (run R s ops).2 + statusBit s.status
      = statusBit (run R s ops).1.status := by
  induction ops generalizing s with
  | nil => simp [run, countStart]
  | cons op ops ih =>
    simp only [run]
    rw [countStart_append]
    have h1 := step_countStart R s op h
    have h2 := ih _ (step_inv R s op h)
    omega

theorem connect_step_noop (R : Rules G) (s : GameInstance G) (p : Nat)
    (h : s.playerState.lookup p ≠ some false) :
    step R s (Op.connect p) = (s, []) := by
  simp only [step]
  unfold GameInstance.connect
  cases hl : s.playerState.lookup p with
  | none => rfl
  | some b =>
    cases b with
    | false => exact absurd hl h
    | true => rfl

theorem connect_step_lookup (R : Rules G) (s : GameInstance G) (p : Nat)
    (h : s.playerState.lookup p = some false) :
    (step R s (Op.connect p)).1.playerState.lookup p = some true := by
  simp only [step]
  unfold GameInstance.connect
  rw [h]
  dsimp only
  split
  · next heq => split at heq <;> simp at heq
  · next r heq =>
    split at heq
    · cases heq
      rw [(onStateChange_proj R
        { s with
          connectedPlayerCount := s.connectedPlayerCount + 1
          playerState := (p, true) :: s.playerState
          status := GameStatus.started
          history := History.recordTransition s.game s.history }
        false true).2.2.1]
      simp [List.lookup]
    · cases heq
      simp [List.lookup]

theorem connect_step_connected (R : Rules G) (s : GameInstance G) (p : Nat) :
    (step R s (Op.connect p)).1.connectedPlayerCount ≤ s.connectedPlayerCount + 1 := by
  simp only [step]
  unfold GameInstance.connect
  cases hl : s.playerState.lookup p with
  | none => simp
  | some b =>
    cases b with
    | true => simp
    | false =>
      dsimp only
      split
      · simp
      · next r heq =>
        split at heq
        · cases heq
          rw [(onStateChange_proj R
            { s with
              connectedPlayerCount := s.connectedPlayerCount + 1
              playerState := (p, true) :: s.playerState
              status := GameStatus.started
              history := History.recordTransition s.game s.history }
            false true).2.1]
        · cases heq
          simp

/-- C8: a second `connect(p)` immediately after a first one is a no-op (the
state is unchanged and nothing is emitted), so two consecutive `connect(p)`
calls raise the connected count by at most 1 in total; and over any operation
sequence from a fresh session the `start` event is emitted at most once. -/
theorem connect_idem_start_once (R : Rules G) (s : GameInstance G) (p : Nat)
    (id0 : Nat) (g0 : G) (ops : List Op) :
    step R (step R s (Op.connect p)).1 (Op.connect p) = ((step R s (Op.connect p)).1, [])
    ∧ (step R s (Op.connect p)).1.connectedPlayerCount ≤ s.connectedPlayerCount + 1
    ∧ countStart (run R (GameInstance.init id0 g0) ops).2 ≤ 1 := by
  refine ⟨?_, connect_step_connected R s p, ?_⟩
  · by_cases hf : s.playerState.lookup p = some false
    · have h2 := connect_step_lookup R s p hf
      apply connect_step_noop
      rw [h2]
      simp
    · have h1 := connect_step_noop R s p hf
      rw [h1]
      exact connect_step_noop R s p hf
  · have h := run_countStart R (GameInstance.init id0 g0) ops (sessionInv_init R id0 g0)
    have h2 := statusBit_le_one (run R (GameInstance.init id0 g0) ops).1.status
    have h3 : statusBit (GameInstance.init (G := G) id0 g0).status = 0 := rfl
    omega

/-- C8 witness at a concrete input. -/
theorem connect_idem_start_once_witness :
    step CRt (step CRt (GameInstance.init 0 0) (Op.connect 1)).1 (Op.connect 1)
      = ((step CRt (GameInstance.init 0 0) (Op.connect 1)).1, [])
    ∧ (step CRt (GameInstance.init 0 0) (Op.connect 1)).1.connectedPlayerCount
      ≤ (GameInstance.init (G := Nat) 0 0).connectedPlayerCount + 1
    ∧ countStart (run CRt (GameInstance.init 0 0)
        [Op.register 1 5, Op.connect 1, Op.connect 1]).2 ≤ 1 :=
  connect_idem_start_once CRt (GameInstance.init 0 0) 1 0 0
    [Op.register 1 5, Op.connect 1, Op.connect 1]

/-! ## History shape lemmas -/

theorem sfm_noConsec (l : List (HistEvent G)) :
    snapsFollowedByMove l = true → noTwoConsecSnaps l = true := by
  induction l with
  | nil => simp [noTwoConsecSnaps]
  | cons a l ih =>
    cases a with
    | move p m =>
      intro h
      have h2 : snapsFollowedByMove l = true := by
        simpa [snapsFollowedByMove] using h
      have h3 := ih h2
      cases l with
      | nil => simp [noTwoConsecSnaps]
      | cons b l2 => cases b <;> simpa [noTwoConsecSnaps] using h3
    | state fs =>
      intro h
      cases l with
      | nil => simp [snapsFollowedByMove] at h
      | cons b l2 =>
        cases b with
        | state x => simp [snapsFollowedByMove] at h
        | move p m =>
          have h2 : snapsFollowedByMove l2 = true := by
            simpa [snapsFollowedByMove] using h
          have h3 : noTwoConsecSnaps (HistEvent.move p m :: l2) = true := by
            apply ih
            simpa [snapsFollowedByMove] using h2
          simpa [noTwoConsecSnaps] using h3

theorem sfm_append_move (l : List (HistEvent G)) (p m : Nat)
    (h : snapsFollowedByMove l = true) :
    snapsFollowedByMove (l ++ [HistEvent.move p m]) = true := by
  induction l with
  | nil => simp [snapsFollowedByMove]
  | cons a l ih =>
    cases a with
    | move q n =>
      have h2 : snapsFollowedByMove l = true := by
        simpa [snapsFollowedByMove] using h
      simpa [snapsFollowedByMove] using ih h2
    | state fs =>
      cases l with
      | nil => simp [snapsFollowedByMove] at h
      | cons b l2 =>
        cases b with
        | state x => simp [snapsFollowedByMove] at h
        | move q n =>
          have h2 : snapsFollowedByMove l2 = true := by
            simpa [snapsFollowedByMove] using h
          have h3 := ih (by simpa [snapsFollowedByMove] using h2)
          simpa [snapsFollowedByMove] using h3

theorem sfm_append_state_move (l : List (HistEvent G)) (x : G) (p m : Nat)
    (h : snapsFollowedByMove l = true) :
    snapsFollowedByMove (l ++ [HistEvent.state x, HistEvent.move p m]) = true := by
  induction l with
  | nil => simp [snapsFollowedByMove]
  | cons a l ih =>
    cases a with
    | move q n =>
      have h2 : snapsFollowedByMove l = true := by
        simpa [snapsFollowedByMove] using h
      simpa [snapsFollowedByMove] using ih h2
    | state fs =>
      cases l with
      | nil => simp [snapsFollowedByMove] at h
      | cons b l2 =>
        cases b with
        | state y => simp [snapsFollowedByMove] at h
        | move q n =>
          have h2 : snapsFollowedByMove l2 = true := by
            simpa [snapsFollowedByMove] using h
          have h3 := ih (by simpa [snapsFollowedByMove] using h2)
          simpa [snapsFollowedByMove] using h3

theorem sfm_recordMove (h : History G) (p m : Nat)
    (hs : snapsFollowedByMove h.events = true) :
    snapsFollowedByMove (h.recordMove p m).events = true := by
  unfold History.recordMove
  cases hn : h.next with
  | none => simpa using sfm_append_move h.events p m hs
  | some x => simpa using sfm_append_state_move h.events x p m hs

theorem recordMove_next (h : History G) (p m : Nat) : (h.recordMove p m).next = none := by
  unfold History.recordMove
  cases h.next <;> rfl

theorem recordTransition_events_of_next_none (g : G) (h : History G) (hn : h.next = none) :
    (h.recordTransition g).events = h.events := by
  unfold History.recordTransition
  rw [hn]

theorem onStateChange_result_history (R : Rules G) (s : GameInstance G) (a b : Bool) :
    (onStateChange R s a b).1.history = s.history
    ∨ (onStateChange R s a b).1.history = s.history.recordTransition s.game := by
  unfold onStateChange
  cases he : R.isEnded s.game with
  | true => left; rfl
  | false => cases a <;> simp [he]

theorem onStateChange_history_false (R : Rules G) (s : GameInstance G) (b : Bool) :
    (onStateChange R s false b).1.history = s.history := by
  unfold onStateChange
  cases he : R.isEnded s.game <;> simp [he]

theorem step_histInv (R : Rules G) (s : GameInstance G) (op : Op)
    (hop : op ≠ Op.timerFire) (h : HistInv s) : HistInv (step R s op).1 := by
  obtain ⟨hs, hn⟩ := h
  cases op with
  | register player tok =>
    simp only [step]
    unfold GameInstance.registerNewPlayer
    split_ifs <;> exact ⟨hs, hn⟩
  | connect player =>
    simp only [step]
    unfold GameInstance.connect
    cases hl : s.playerState.lookup player with
    | none => exact ⟨hs, hn⟩
    | some b =>
      cases b with
      | true => exact ⟨hs, hn⟩
      | false =>
        dsimp only
        split
        · exact ⟨hs, hn⟩
        · next r heq =>
          split at heq
          · next hcond =>
            cases heq
            have hns2 : s.status = GameStatus.not_started := by
              simpa [GameInstance.hasStarted] using hcond.1
            have hnext := hn hns2
            constructor
            · rw [onStateChange_history_false]
              dsimp only
              rw [recordTransition_events_of_next_none _ _ hnext]
              exact hs
            · intro hh
              exfalso
              rcases onStateChange_status_cases R
                { s with
                  connectedPlayerCount := s.connectedPlayerCount + 1
                  playerState := (player, true) :: s.playerState
                  status := GameStatus.started
                  history := History.recordTransition s.game s.history }
                false true with hcs | hcs | hcs <;>
                rw [hcs] at hh <;> simp at hh
          · cases heq
            exact ⟨hs, hn⟩
  | move player mv elapsed =>
    simp only [step]
    unfold GameInstance.move
    dsimp only
    split
    · exact ⟨hs, hn⟩
    · next hstarted =>
      split
      · exact ⟨hs, hn⟩
      · next hnotrej =>
        dsimp only
        have hst2 : s.status ≠ GameStatus.not_started := by
          intro hh
          exact hstarted (by simp [GameInstance.hasStarted, hh])
        constructor
        · rcases onStateChange_result_history R
            { s with
              history := History.recordMove player mv s.history
              game := R.move s.game player mv elapsed
              timerRunning := false }
            true true with hh | hh <;> rw [hh] <;> dsimp only
          · exact sfm_recordMove s.history player mv hs
          · rw [recordTransition_events_of_next_none _ _
              (recordMove_next s.history player mv)]
            exact sfm_recordMove s.history player mv hs
        · intro hh
          exfalso
          rcases onStateChange_status_cases R
            { s with
              history := History.recordMove player mv s.history
              game := R.move s.game player mv elapsed
              timerRunning := false }
            true true with hcs | hcs | hcs <;> rw [hcs] at hh
          · exact hst2 (by simpa using hh)
          · simp at hh
          · simp at hh
  | timerFire => exact absurd rfl hop

theorem run_histInv (R : Rules G) (s : GameInstance G) (ops : List Op)
    (hops : Op.timerFire ∉ ops) (h : HistInv s) : HistInv (run R s ops).1 := by
  induction ops generalizing s with
  | nil => simpa [run]
  | cons op ops ih =>
    simp only [run]
    have h1 : op ≠ Op.timerFire := by
      intro hh
      exact hops (by rw [hh]; exact List.mem_cons_self _ _)
    have h2 : Op.timerFire ∉ ops := fun hh => hops (List.mem_cons_of_mem _ hh)
    exact ih (step R s op).1 h2 (step_histInv R s op h1 h)

theorem noConsecViews_getHistory (R : Rules G) (s : GameInstance G) (v : Option Nat) :
    noTwoConsecSnapViews (s.getHistory R v) = noTwoConsecSnaps s.history.events := by
  unfold GameInstance.getHistory
  generalize s.history.events = l
  induction l with
  | nil => rfl
  | cons a l ih =>
    cases l with
    | nil => cases a <;> rfl
    | cons b l2 =>
      cases a <;> cases b <;>
        simpa [noTwoConsecSnaps, noTwoConsecSnapViews] using ih

/-- C1 (amended): in runs containing no timer fire, the history log never
holds two consecutive state snapshots (every snapshot is flushed immediately
before a move record), and the same holds of its per-viewer replay.  The
unrestricted claim fails: the `start`/`stateChange` handler appends the
pending snapshot to the log before buffering the new state rather than
replacing it, so timeout-driven state changes produce consecutive snapshots
(see the counterexample). -/
theorem history_coalesced_without_timeouts (R : Rules G) (id0 : Nat) (g0 : G)
    (ops : List Op) (hops : Op.timerFire ∉ ops) (viewer : Option Nat) :
    noTwoConsecSnaps (runState R (GameInstance.init id0 g0) ops).history.events = true
    ∧ noTwoConsecSnapViews
        (GameInstance.getHistory R (runState R (GameInstance.init id0 g0) ops) viewer)
      = true := by
  have h0 : HistInv (GameInstance.init (G := G) id0 g0) := ⟨rfl, fun _ => rfl⟩
  have h := run_histInv R (GameInstance.init id0 g0) ops hops h0
  have h1 := sfm_noConsec _ h.1
  refine ⟨h1, ?_⟩
  rw [noConsecViews_getHistory]
  exact h1

/-- C1 amended-claim witness at a concrete input. -/
theorem history_coalesced_without_timeouts_witness :
    noTwoConsecSnaps (runState CRt (GameInstance.init 0 0)
      [Op.register 1 5, Op.connect 1, Op.move 1 9 0, Op.move 1 8 0]).history.events = true
    ∧ noTwoConsecSnapViews (GameInstance.getHistory CRt (runState CRt (GameInstance.init 0 0)
      [Op.register 1 5, Op.connect 1, Op.move 1 9 0, Op.move 1 8 0]) none) = true :=
  history_coalesced_without_timeouts CRt 0 0
    [Op.register 1 5, Op.connect 1, Op.move 1 9 0, Op.move 1 8 0] (by decide) none

/-- C1 counterexample: with a rules module whose timeout handler reports a
state change, two timer fires between two moves leave three consecutive
`StateSnapshot` entries between the two `MoveRecord` entries — the log (and
its replay) does contain consecutive snapshots, refuting the claimed
invariant. -/
theorem history_consec_snaps_counterexample :
    (runState CRtchg (GameInstance.init 0 0)
        [Op.register 1 5, Op.connect 1, Op.move 1 9 0, Op.timerFire, Op.timerFire,
          Op.move 1 8 0]).history.events
      = [HistEvent.state 0, HistEvent.move 1 9, HistEvent.state 1, HistEvent.state 2,
          HistEvent.state 3, HistEvent.move 1 8]
    ∧ noTwoConsecSnaps (runState CRtchg (GameInstance.init 0 0)
        [Op.register 1 5, Op.connect 1, Op.move 1 9 0, Op.timerFire, Op.timerFire,
          Op.move 1 8 0]).history.events = false
    ∧ noTwoConsecSnapViews (GameInstance.getHistory CRtchg (runState CRtchg
        (GameInstance.init 0 0)
        [Op.register 1 5, Op.connect 1, Op.move 1 9 0, Op.timerFire, Op.timerFire,
          Op.move 1 8 0]) none) = false := by
  decide

/-- C3 amended-claim witness at a concrete input. -/
theorem getInfo_fields_witness :
    (GameInstance.getInfo CRend (runState CRend (GameInstance.init 0 0)
        [Op.register 1 5, Op.connect 1, Op.move 1 0 0])).winner.isSome = true
    ∧ (runState CRend (GameInstance.init 0 0)
        [Op.register 1 5, Op.connect 1, Op.move 1 0 0]).status = GameStatus.ended :=
  ⟨(getInfo_fields CRend (runState CRend (GameInstance.init 0 0)
      [Op.register 1 5, Op.connect 1, Op.move 1 0 0])).2.2.2.2.2.2.2.1.mpr (by decide),
    by decide⟩

/-- C6 witness at a concrete input. -/
theorem move_result_kinds_witness :
    (((GameInstance.init 0 0).move CRt 1 0 0).1 = none
      ↔ (GameInstance.init (G := Nat) 0 0).status = GameStatus.not_started)
    ∧ (((GameInstance.init 0 0).move CRt 1 0 0).1 = some false
      ↔ ((GameInstance.init (G := Nat) 0 0).status ≠ GameStatus.not_started
        ∧ (CRt.isEnded (GameInstance.init (G := Nat) 0 0).game = true
          ∨ CRt.isValidMove (GameInstance.init (G := Nat) 0 0).game 1 0 = false)))
    ∧ (((GameInstance.init 0 0).move CRt 1 0 0).1 = some true
      ↔ ((GameInstance.init (G := Nat) 0 0).status ≠ GameStatus.not_started
        ∧ CRt.isEnded (GameInstance.init (G := Nat) 0 0).game = false
        ∧ CRt.isValidMove (GameInstance.init (G := Nat) 0 0).game 1 0 = true)) :=
  move_result_kinds CRt (GameInstance.init 0 0) 1 0 0

/-- C9 witness at a concrete input: with `CRt` the timeout reports no change,
so the fire does no bookkeeping and the timer stays stopped. -/
theorem timeout_spec_witness :
    step CRt (runState CRt (GameInstance.init 0 0) [Op.register 1 5, Op.connect 1])
        Op.timerFire
      = ({ runState CRt (GameInstance.init 0 0) [Op.register 1 5, Op.connect 1] with
          game := (CRt.onMoveTimeout (runState CRt (GameInstance.init 0 0)
            [Op.register 1 5, Op.connect 1]).game).2
          timerRunning := false }, []) :=
  (timeout_spec CRt (runState CRt (GameInstance.init 0 0) [Op.register 1 5, Op.connect 1])
    (by decide)).1 (by decide)

/-- C10 witness at a concrete input: connecting an unregistered player throws,
connecting a registered one does not. -/
theorem connect_throws_witness :
    ((GameInstance.init 0 0).connect CRt 2 = none
      ↔ (GameInstance.init (G := Nat) 0 0).playerState.lookup 2 = none)
    ∧ (GameInstance.init 0 0).connect CRt 2 = none :=
  ⟨connect_throws_iff_unregistered CRt (GameInstance.init 0 0) 2,
    (connect_throws_iff_unregistered CRt (GameInstance.init 0 0) 2).mpr (by decide)⟩
